import Mathlib

/-!
# Verification of the medallion ETL pipeline

A shallow embedding of the medallion (bronze/silver/gold) transaction
pipeline, together with proofs of the specified properties.

The embedded code comes from two places in the repository:

* `src/src/sqlite-medallion-solution.py`, class `MedallionPipeline` — the
  pipeline the specification describes (bronze dedup load, silver validation
  with corrective rewrites, gold frontier aggregation with insert-or-replace,
  and the short-circuiting orchestrator `run_pipeline`);
* `src/sqlite_pipeline/bronze.py` — the CSV bronze loader
  (`validate_csv_structure` / `ingest_data`) with its per-row error handling.

SQLite `REAL` amounts are modelled as `ℚ`; `DATE` values are modelled as
their `'YYYY-MM-DD'` strings, compared lexicographically exactly as SQLite
compares `TEXT` (and as the generated dates sort chronologically).
-/

namespace Medallion

/-- Embeds Python's `"; ".join(messages)` as used to build the silver
`validation_status` string. -/
def joinSemi : List String → String
  | [] => ""
  | [m] => m
  | m :: m' :: rest => m ++ "; " ++ joinSemi (m' :: rest)

/-- `strContains hay needle` holds when `needle` occurs contiguously inside
`hay` (substring containment, on the underlying character lists). -/
def strContains (hay needle : String) : Prop :=
  needle.data <:+: hay.data

instance (hay needle : String) : Decidable (strContains hay needle) := by
  unfold strContains
  infer_instance

/-- A message that occurs in a list occurs as a substring of the
semicolon-join of that list. -/
theorem strContains_joinSemi (m : String) :
    ∀ l : List String, m ∈ l → strContains (joinSemi l) m := by
  intro l
  induction l with
  | nil => intro h; cases h
  | cons a rest ih =>
    intro h
    cases rest with
    | nil =>
      have hm : m = a := by simpa using h
      subst hm
      exact List.infix_rfl
    | cons b rest' =>
      have hj : joinSemi (a :: b :: rest') = a ++ "; " ++ joinSemi (b :: rest') := rfl
      unfold strContains
      rw [hj, String.data_append, String.data_append]
      rcases List.mem_cons.mp h with hm | hm
      · subst hm
        rw [List.append_assoc]
        exact (List.prefix_append _ _).isInfix
      · exact (ih hm).trans (List.suffix_append _ _).isInfix

/-- Substring containment extends through prepending. -/
theorem strContains_append_left (p hay needle : String)
    (h : strContains hay needle) : strContains (p ++ hay) needle := by
  unfold strContains
  rw [String.data_append]
  exact h.trans (List.suffix_append _ _).isInfix

/-! ## Silver layer (`MedallionPipeline.process_silver_layer`) -/

/-- A row of `bronze_transactions` as created by
`MedallionPipeline.process_bronze_layer` (solution file, table schema at
lines 68–81). -/
structure BronzeRow where
  transaction_id : String
  customer_id : String
  timestamp : String
  amount : ℚ
  transaction_type : String
  merchant : Option String
  category : Option String
  status : String
  ingestion_timestamp : String
  source_file : String
deriving DecidableEq, Repr

/-- A row of `silver_transactions` (solution file, schema at lines 84–99).
`transaction_date`/`transaction_time` are `none` when the bronze timestamp
failed to parse. -/
structure SilverRow where
  transaction_id : String
  customer_id : String
  transaction_date : Option String
  transaction_time : Option String
  amount : ℚ
  transaction_type : String
  merchant : Option String
  category : Option String
  status : String
  processing_timestamp : String
  bronze_ingestion_timestamp : String
  validation_status : String
deriving DecidableEq, Repr

/-- Splits a character list on a separator character; embeds Python's
`str.split(sep)` / Lean's `String.splitOn` for a one-character separator
(adjacent separators produce empty fields; the empty input gives `[[]]`). -/
def splitChar (c : Char) : List Char → List (List Char)
  | [] => [[]]
  | x :: xs =>
    let r := splitChar c xs
    if x = c then [] :: r
    else
      match r with
      | [] => [[x]]
      | y :: ys => (x :: y) :: ys

/-- `splitChar` as an operation on strings. -/
def strSplitChar (c : Char) (s : String) : List String :=
  (splitChar c s.data).map (fun l => ⟨l⟩)

/-- Strips leading and trailing whitespace; embeds Python's `str.strip()` /
Lean's `String.trim`. -/
def trimChars (l : List Char) : List Char :=
  ((l.dropWhile (·.isWhitespace)).reverse.dropWhile (·.isWhitespace)).reverse

/-- `trimChars` as an operation on strings. -/
def strTrim (s : String) : String :=
  ⟨trimChars s.data⟩

/-- `p` is a prefix of `s`; embeds Python's `str.startswith` / Lean's
`String.startsWith`. -/
def strStartsWith (s p : String) : Bool :=
  p.data.isPrefixOf s.data

/-- Reads a nonempty all-digit character list as a natural number; embeds
`String.toNat?`. -/
def digitsToNat? (l : List Char) : Option ℕ :=
  if l.isEmpty then none
  else if l.all (·.isDigit) then
    some (l.foldl (fun n c => n * 10 + (c.toNat - 48)) 0)
  else none

/-- Decides whether every character of `s` is an ASCII digit. -/
def allDigits (s : String) : Bool :=
  s.data.all (·.isDigit)

/-- Models `pd.to_datetime(row['timestamp'])` followed by `.date()` /
`.time()` on the pipeline's `'YYYY-MM-DD HH:MM:SS'` timestamps: splits the
string into its date and time components, `none` when the string is not in
that shape (the raised exception in the source). -/
def parseTimestamp (s : String) : Option (String × String) :=
  match strSplitChar ' ' s with
  | [d, t] =>
    match strSplitChar '-' d, strSplitChar ':' t with
    | [y, mo, da], [h, mi, se] =>
      if allDigits y && allDigits mo && allDigits da &&
         allDigits h && allDigits mi && allDigits se &&
         y.length == 4 && mo.length == 2 && da.length == 2 then
        some (d, t)
      else none
    | _, _ => none
  | _ => none

/-- Embeds Python's `str.lower()` (the statuses are ASCII) by lower-casing
every character. -/
def strToLower (s : String) : String :=
  ⟨s.data.map Char.toLower⟩

/-- The fixed status vocabulary (solution file, line 236). -/
def valid_statuses : List String :=
  ["completed", "pending", "failed", "reversed"]

/-- One iteration of the validation loop of
`MedallionPipeline.process_silver_layer` (solution file, lines 214–246):
timestamp split, refund-amount corrective rewrite, customer-id format check,
status rewrite, and the accumulated warning messages. Returns the produced
silver row together with the `validation_messages` list. -/
def validateRow (procTs : String) (r : BronzeRow) : SilverRow × List String :=
  let dtParse := parseTimestamp r.timestamp
  let msgs1 : List String :=
    match dtParse with
    | some _ => []
    | none => ["Invalid timestamp: " ++ r.timestamp]
  let amount' : ℚ :=
    if r.transaction_type = "refund" ∧ 0 ≤ r.amount then -|r.amount| else r.amount
  let msgs2 : List String :=
    if r.transaction_type = "refund" ∧ 0 ≤ r.amount then
      msgs1 ++ ["Refund with non-negative amount"]
    else msgs1
  let msgs3 : List String :=
    if strStartsWith r.customer_id "CUST" then msgs2
    else msgs2 ++ ["Invalid customer ID format"]
  let status' : String :=
    if valid_statuses.contains (strToLower r.status) then r.status else "pending"
  let msgs4 : List String :=
    if valid_statuses.contains (strToLower r.status) then msgs3
    else msgs3 ++ ["Invalid status: " ++ r.status]
  let vstatus : String :=
    if msgs4.isEmpty then "VALID" else "WARNING: " ++ joinSemi msgs4
  ({ transaction_id := r.transaction_id
     customer_id := r.customer_id
     transaction_date := dtParse.map Prod.fst
     transaction_time := dtParse.map Prod.snd
     amount := amount'
     transaction_type := r.transaction_type
     merchant := r.merchant
     category := r.category
     status := status'
     processing_timestamp := procTs
     bronze_ingestion_timestamp := r.ingestion_timestamp
     validation_status := vstatus }, msgs4)

/-- `MedallionPipeline.process_silver_layer` (solution file, lines 182–273):
the anti-join selects the bronze rows whose `transaction_id` is absent from
silver; each selected row is validated and appended; returns the new silver
table and the success flag. -/
def process_silver_layer (procTs : String)
    (bronze : List BronzeRow) (silver : List SilverRow) :
    List SilverRow × Bool :=
  let df := bronze.filter
    (fun b => ¬ silver.any (fun s => s.transaction_id == b.transaction_id))
  if df.isEmpty then (silver, true)
  else (silver ++ df.map (fun b => (validateRow procTs b).1), true)

/-! ## Bronze layer (`MedallionPipeline.process_bronze_layer`) -/

/-- A row of the input parquet batch handed to
`MedallionPipeline.process_bronze_layer` (the eight data columns; the
ingestion metadata is stamped on by the loader). -/
structure InRow where
  transaction_id : String
  customer_id : String
  timestamp : String
  amount : ℚ
  transaction_type : String
  merchant : Option String
  category : Option String
  status : String
deriving DecidableEq, Repr

/-- `df.drop_duplicates(subset=['transaction_id'], keep='first')` (solution
file, line 151): keep a row only when its `transaction_id` was not seen in
an earlier row; `seen` accumulates the ids kept so far. -/
def dedupFirst (seen : List String) : List InRow → List InRow
  | [] => []
  | r :: rest =>
    if seen.contains r.transaction_id then dedupFirst seen rest
    else r :: dedupFirst (r.transaction_id :: seen) rest

/-- Stamping of the ingestion metadata columns (solution file,
lines 144–145). -/
def stampRow (ts src : String) (r : InRow) : BronzeRow :=
  { transaction_id := r.transaction_id
    customer_id := r.customer_id
    timestamp := r.timestamp
    amount := r.amount
    transaction_type := r.transaction_type
    merchant := r.merchant
    category := r.category
    status := r.status
    ingestion_timestamp := ts
    source_file := src }

/-- The `transaction_id` column of a bronze table. -/
def bronzeIds (l : List BronzeRow) : List String :=
  l.map (·.transaction_id)

/-- `MedallionPipeline.process_bronze_layer` (solution file, lines 126–180):
drop in-batch duplicate ids keeping the first occurrence, drop rows whose id
already exists in bronze, and append the stamped remainder; returns the new
bronze table and the success flag. -/
def process_bronze_layer (ts src : String) (batch : List InRow)
    (bronze : List BronzeRow) : List BronzeRow × Bool :=
  let df := dedupFirst [] batch
  let newRecords := df.filter
    (fun r => ¬ (bronzeIds bronze).contains r.transaction_id)
  if newRecords.isEmpty then (bronze, true)
  else (bronze ++ newRecords.map (stampRow ts src), true)

/-! ## Gold layer (`MedallionPipeline.process_gold_layer`) -/

/-- A row of `gold_daily_summary` (solution file, schema at lines 102–115).
`summary_date` is `none` when the aggregated `transaction_date` was NULL. -/
structure GoldRow where
  summary_date : Option String
  transaction_type : String
  category : String
  transaction_count : ℕ
  total_amount : ℚ
  avg_amount : ℚ
  min_amount : ℚ
  max_amount : ℚ
  processing_timestamp : String
deriving DecidableEq, Repr

/-- `SELECT MAX(summary_date) FROM gold_daily_summary` (solution file,
line 294): SQLite's `MAX` over `TEXT` dates, ignoring NULLs, `none` on an
empty table. -/
def maxDate : List GoldRow → Option String
  | [] => none
  | r :: rest =>
    match r.summary_date, maxDate rest with
    | none, m => m
    | some x, none => some x
    | some x, some m => some (max x m)

/-- The silver row passes the gold `validation_status = 'VALID'` filter. -/
def isValidRow (r : SilverRow) : Bool :=
  r.validation_status == "VALID"

/-- The `WHERE` clause rows of the gold queries (solution file,
lines 298–328): when `MAX(summary_date)` is truthy (Python: non-`None` and
non-empty) only `'VALID'` rows with `transaction_date` strictly past it are
selected; otherwise all `'VALID'` rows are. A NULL `transaction_date` never
satisfies the SQL comparison `transaction_date > frontier`. -/
def selectForGold (silver : List SilverRow) (gold : List GoldRow) :
    List SilverRow :=
  match maxDate gold with
  | some d =>
    if d = "" then silver.filter isValidRow
    else
      silver.filter (fun r =>
        (match r.transaction_date with
         | some dt => decide (d < dt)
         | none => false) && isValidRow r)
  | none => silver.filter isValidRow

/-- The `GROUP BY transaction_date, transaction_type, category` key of a
silver row. -/
def aggKey (r : SilverRow) : Option String × String × Option String :=
  (r.transaction_date, r.transaction_type, r.category)

/-- The distinct grouping keys of the selected rows. -/
def gkeys (rows : List SilverRow) : List (Option String × String × Option String) :=
  (rows.map aggKey).dedup

/-- Minimum of a list of amounts (`MIN(amount)`; groups are nonempty). -/
def listMin : List ℚ → ℚ
  | [] => 0
  | x :: xs => xs.foldl min x

/-- Maximum of a list of amounts (`MAX(amount)`; groups are nonempty). -/
def listMax : List ℚ → ℚ
  | [] => 0
  | x :: xs => xs.foldl max x

/-- `df['category'].fillna('unknown')` and the `''` → `'unknown'` rewrite
(solution file, lines 344–345). -/
def normCat : Option String → String
  | none => "unknown"
  | some s => if s = "" then "unknown" else s

/-- One aggregated group row: `COUNT(*)`, `SUM`, `AVG`, `MIN`, `MAX` of
`amount` over the selected rows sharing key `k`, with category
normalization applied before insertion. -/
def mkGoldRow (procTs : String) (sel : List SilverRow)
    (k : Option String × String × Option String) : GoldRow :=
  let grp := sel.filter (fun r => decide (aggKey r = k))
  let amts := grp.map (·.amount)
  { summary_date := k.1
    transaction_type := k.2.1
    category := normCat k.2.2
    transaction_count := grp.length
    total_amount := amts.sum
    avg_amount := amts.sum / (grp.length : ℚ)
    min_amount := listMin amts
    max_amount := listMax amts
    processing_timestamp := procTs }

/-- `INSERT OR REPLACE INTO gold_daily_summary` (solution file,
lines 351–362): delete any row with the same `(summary_date,
transaction_type, category)` primary key, then insert. -/
def upsertRow (g : List GoldRow) (nr : GoldRow) : List GoldRow :=
  g.filter (fun r =>
    ¬ (r.summary_date = nr.summary_date ∧
       r.transaction_type = nr.transaction_type ∧
       r.category = nr.category)) ++ [nr]

/-- `MedallionPipeline.process_gold_layer` (solution file, lines 282–376):
select the unaggregated `'VALID'` silver rows past the frontier, group and
aggregate them, and upsert every group row into gold. -/
def process_gold_layer (procTs : String) (silver : List SilverRow)
    (gold : List GoldRow) : List GoldRow :=
  let sel := selectForGold silver gold
  let keys := gkeys sel
  if keys.isEmpty then gold
  else keys.foldl (fun g k => upsertRow g (mkGoldRow procTs sel k)) gold

/-- `selectedInRuns r gold runs` holds when silver row `r` is selected for
aggregation by some run in the sequence `runs` of gold-stage executions
(each run carries its processing timestamp and the silver table it sees),
starting from the gold state `gold`. -/
def selectedInRuns (r : SilverRow) (gold : List GoldRow) :
    List (String × List SilverRow) → Prop
  | [] => False
  | (ts, s) :: rest =>
    r ∈ selectForGold s gold ∨
      selectedInRuns r (process_gold_layer ts s gold) rest

/-! ## Orchestrator (`MedallionPipeline.run_pipeline`) -/

/-- The stages of `run_pipeline`, in their source order. -/
inductive Stage
  | bronzeStage
  | silverStage
  | goldStage
  | exportStage
deriving DecidableEq, Repr

/-- The three tables of the store. -/
structure PipelineDB where
  bronze : List BronzeRow
  silver : List SilverRow
  gold : List GoldRow
deriving DecidableEq, Repr

/-- The gold and export part of `run_pipeline` (solution file,
lines 476–484): `goldOk` models whether the gold stage's store operations
succeed (an exception makes `process_gold_layer` return `False`, which
`run_pipeline` turns into a raise); the exports run only after gold
succeeded. -/
def runFromGold (procTs : String) (goldOk : Bool) (db : PipelineDB)
    (trace : List Stage) : PipelineDB × List Stage × Bool :=
  if goldOk then
    ({ db with gold := process_gold_layer procTs db.silver db.gold },
     trace ++ [Stage.goldStage, Stage.exportStage], true)
  else (db, trace ++ [Stage.goldStage], false)

/-- The silver-and-later part of `run_pipeline` (solution file,
lines 471–484); a silver failure rolls its transaction back and stops the
pipeline. -/
def runFromSilver (procTs : String) (silverOk goldOk : Bool)
    (db : PipelineDB) (trace : List Stage) : PipelineDB × List Stage × Bool :=
  if silverOk then
    runFromGold procTs goldOk
      { db with silver := (process_silver_layer procTs db.bronze db.silver).1 }
      (trace ++ [Stage.silverStage])
  else (db, trace ++ [Stage.silverStage], false)

/-- `MedallionPipeline.run_pipeline` (solution file, lines 451–502): bronze
runs only when an input file is given; each stage raises on failure, which
skips every later stage; returns the final store state, the trace of stages
entered, and overall success. `bronzeOk`/`silverOk`/`goldOk` model whether
the respective stage's store operations raise. -/
def run_pipeline (input : Option (List InRow)) (procTs src : String)
    (bronzeOk silverOk goldOk : Bool) (db : PipelineDB) :
    PipelineDB × List Stage × Bool :=
  match input with
  | some batch =>
    if bronzeOk then
      runFromSilver procTs silverOk goldOk
        { db with bronze := (process_bronze_layer procTs src batch db.bronze).1 }
        [Stage.bronzeStage]
    else (db, [Stage.bronzeStage], false)
  | none => runFromSilver procTs silverOk goldOk db []

/-! ## CSV bronze loader (`sqlite_pipeline/bronze.py`) -/

/-- A `csv.DictReader` row: the dictionary mapping a field name to the raw
string value of that cell. -/
abbrev CsvRow := List (String × String)

/-- `row[k]`: dictionary lookup; `none` models a raised `KeyError`. -/
def getField (row : CsvRow) (k : String) : Option String :=
  (row.find? (fun p => p.1 == k)).map (·.2)

/-- Models Python `float(...)` on the decimal strings this pipeline's CSV
data carries (optional sign, digits, optional fractional part); `none`
models a raised `ValueError`. -/
def pyFloat (s : String) : Option ℚ :=
  let t := trimChars s.data
  let sgn : ℚ := if t.head? = some '-' then -1 else 1
  let body := if t.head? = some '-' ∨ t.head? = some '+' then t.drop 1 else t
  match splitChar '.' body with
  | [i] => (digitsToNat? i).map (fun n => sgn * (n : ℚ))
  | [i, f] =>
    match digitsToNat? i, digitsToNat? f with
    | some ni, some nf =>
      some (sgn * ((ni : ℚ) + (nf : ℚ) / (10 : ℚ) ^ f.length))
    | _, _ => none
  | _ => none

/-- A row of `bronze_transactions` as created by `bronze.py` (schema at
lines 15–26; no ingestion metadata columns in this variant). Empty or
whitespace-only `merchant`/`category` cells are stored as NULL. -/
structure CsvBronzeRow where
  transaction_id : String
  customer_id : String
  timestamp : String
  amount : ℚ
  transaction_type : String
  merchant : Option String
  category : Option String
  status : String
deriving DecidableEq, Repr

/-- The required CSV columns (`bronze.py`, lines 66–69). -/
def required_columns : List String :=
  ["transaction_id", "customer_id", "timestamp", "amount",
   "transaction_type", "merchant", "category", "status"]

/-- `validate_csv_structure` (`bronze.py`, lines 28–53): fail when the file
has no header, or when any required column is missing from it. -/
def validate_csv_structure (header : List String) (req : List String) : Bool :=
  if header.isEmpty then false
  else req.all (fun c => header.contains c)

/-- The body of the per-row `try` block of `ingest_data` (`bronze.py`,
lines 92–106): read every field of the row and convert `amount` with
`float`; `none` models a raised `KeyError` or `ValueError`, which skips the
row. -/
def parseCsvRow (row : CsvRow) : Option CsvBronzeRow :=
  match getField row "transaction_id", getField row "customer_id",
        getField row "timestamp", getField row "amount",
        getField row "transaction_type", getField row "merchant",
        getField row "category", getField row "status" with
  | some tid, some cust, some ts, some amtS,
    some tty, some mer, some cat, some st =>
    (pyFloat amtS).map (fun amt =>
      { transaction_id := tid
        customer_id := cust
        timestamp := ts
        amount := amt
        transaction_type := tty
        merchant := if strTrim mer = "" then none else some (strTrim mer)
        category := if strTrim cat = "" then none else some (strTrim cat)
        status := st })
  | _, _, _, _, _, _, _, _ => none

/-- The insertion loop of `ingest_data` (`bronze.py`, lines 88–113): a row
that fails to parse is skipped (logged `KeyError`/`ValueError`); an insert
whose `transaction_id` already exists raises `sqlite3.IntegrityError` and is
skipped; otherwise the row is inserted and `record_count` incremented. -/
def ingestLoop : List CsvRow → List CsvBronzeRow → ℕ → List CsvBronzeRow × ℕ
  | [], table, count => (table, count)
  | row :: rest, table, count =>
    match parseCsvRow row with
    | none => ingestLoop rest table count
    | some rec =>
      if table.any (fun r => r.transaction_id == rec.transaction_id) then
        ingestLoop rest table count
      else ingestLoop rest (table ++ [rec]) (count + 1)

/-- A CSV file: its header line and its data rows. -/
structure CsvFile where
  header : List String
  rows : List CsvRow
deriving DecidableEq

/-- `ingest_data` (`bronze.py`, lines 55–122): abort returning `False` and
leaving the table untouched when the structure validation fails; otherwise
run the insertion loop, commit, and return `True`. The result is the
returned success flag, the new table, and the logged `record_count`. -/
def ingest_data (f : CsvFile) (table : List CsvBronzeRow) :
    Bool × List CsvBronzeRow × ℕ :=
  if validate_csv_structure f.header required_columns then
    let r := ingestLoop f.rows table 0
    (true, r.1, r.2)
  else (false, table, 0)

/-! ## Concrete example data -/

/-- A refund ingested with a positive amount (spec §8's validation-correctness
example). -/
def exBronzeRefund : BronzeRow :=
  { transaction_id := "T2"
    customer_id := "CUST2"
    timestamp := "2024-01-01 10:30:00"
    amount := 50
    transaction_type := "refund"
    merchant := some "acme"
    category := some "food"
    status := "completed"
    ingestion_timestamp := "2024-01-02 00:00:00"
    source_file := "transactions.parquet" }

/-- A purchase carrying an unrecognized status value. -/
def exBronzeBadStatus : BronzeRow :=
  { exBronzeRefund with
    transaction_id := "T3"
    transaction_type := "purchase"
    amount := 20
    status := "unknown_value" }

/-- A bronze row whose id is already present in silver. -/
def exBronzeT1 : BronzeRow :=
  { exBronzeRefund with
    transaction_id := "T1"
    customer_id := "CUST1"
    transaction_type := "purchase"
    amount := 20 }

/-- A fully valid silver row for `T1`. -/
def exSilverValid : SilverRow :=
  { transaction_id := "T1"
    customer_id := "CUST1"
    transaction_date := some "2024-01-01"
    transaction_time := some "10:30:00"
    amount := 20
    transaction_type := "purchase"
    merchant := some "acme"
    category := some "food"
    status := "completed"
    processing_timestamp := "2024-01-02 00:00:00"
    bronze_ingestion_timestamp := "2024-01-02 00:00:00"
    validation_status := "VALID" }

/-- A late-arriving valid silver row dated before the gold frontier. -/
def exSilverLate : SilverRow :=
  { exSilverValid with transaction_id := "T9" }

/-- An existing gold summary row establishing the frontier `2024-01-02`. -/
def exGoldRow : GoldRow :=
  { summary_date := some "2024-01-02"
    transaction_type := "purchase"
    category := "food"
    transaction_count := 1
    total_amount := 20
    avg_amount := 20
    min_amount := 20
    max_amount := 20
    processing_timestamp := "2024-01-03 00:00:00" }

/-- An input batch row for the bronze loader. -/
def exInA : InRow :=
  { transaction_id := "A"
    customer_id := "CUST1"
    timestamp := "2024-01-01 10:30:00"
    amount := 20
    transaction_type := "purchase"
    merchant := some "acme"
    category := some "food"
    status := "completed" }

/-- An in-batch duplicate of `exInA` with a different amount. -/
def exInA2 : InRow :=
  { exInA with amount := 7 }

/-- A second distinct input batch row. -/
def exInB : InRow :=
  { exInA with transaction_id := "B" }

/-- A CSV file whose header is missing most required columns. -/
def exCsvMissing : CsvFile :=
  { header := ["transaction_id", "customer_id"]
    rows := [[("transaction_id", "X"), ("customer_id", "CUST9")]] }

/-- A well-formed CSV data row with the given id and raw amount. -/
def mkCsvRow (tid amt : String) : CsvRow :=
  [("transaction_id", tid), ("customer_id", "CUST1"),
   ("timestamp", "2024-01-01 10:30:00"), ("amount", amt),
   ("transaction_type", "purchase"), ("merchant", "acme"),
   ("category", "food"), ("status", "completed")]

/-- A CSV file carrying one insertable row. -/
def exCsvOne : CsvFile :=
  { header := required_columns, rows := [mkCsvRow "T1" "5"] }

/-- A CSV file carrying two insertable rows. -/
def exCsvTwo : CsvFile :=
  { header := required_columns, rows := [mkCsvRow "T1" "5", mkCsvRow "T2" "6"] }

/-- A CSV row whose amount cannot be converted to a float. -/
def exCsvBad : CsvRow :=
  mkCsvRow "T9" "abc"

/-- An empty store. -/
def dbEmpty : PipelineDB :=
  { bronze := [], silver := [], gold := [] }

/-! ## Lemmas about the silver validation loop -/

/-- The produced `validation_status` is `"VALID"` exactly when no warning
message was recorded, else the `"WARNING: "`-joined messages. -/
theorem validateRow_status_eq (procTs : String) (r : BronzeRow) :
    (validateRow procTs r).1.validation_status =
      (if ((validateRow procTs r).2).isEmpty then "VALID"
       else "WARNING: " ++ joinSemi (validateRow procTs r).2) := rfl

/-- The produced amount is the refund-corrected amount. -/
theorem validateRow_amount (procTs : String) (r : BronzeRow) :
    (validateRow procTs r).1.amount =
      (if r.transaction_type = "refund" ∧ 0 ≤ r.amount then -|r.amount|
       else r.amount) := rfl

/-- The produced status is defaulted exactly on an unrecognized status. -/
theorem validateRow_status_field (procTs : String) (r : BronzeRow) :
    (validateRow procTs r).1.status =
      (if valid_statuses.contains (strToLower r.status) then r.status
       else "pending") := rfl

/-- Any recorded warning message occurs as a substring of the produced
`validation_status`. -/
theorem mem_msgs_strContains (procTs : String) (r : BronzeRow) (m : String)
    (h : m ∈ (validateRow procTs r).2) :
    strContains (validateRow procTs r).1.validation_status m := by
  have hne : ((validateRow procTs r).2).isEmpty = false := by
    cases hl : (validateRow procTs r).2 with
    | nil => rw [hl] at h; cases h
    | cons a t => simp
  rw [validateRow_status_eq]
  simp only [hne, Bool.false_eq_true, if_false]
  exact strContains_append_left _ _ _ (strContains_joinSemi m _ h)

/-- A non-negative refund records the refund warning. -/
theorem refund_msg_mem (procTs : String) (r : BronzeRow)
    (h : r.transaction_type = "refund" ∧ 0 ≤ r.amount) :
    "Refund with non-negative amount" ∈ (validateRow procTs r).2 := by
  simp only [validateRow]
  rw [if_pos h]
  split_ifs <;> simp [List.mem_append]

/-- An unrecognized status records the invalid-status warning. -/
theorem invalid_status_msg_mem (procTs : String) (r : BronzeRow)
    (h : valid_statuses.contains (strToLower r.status) = false) :
    ("Invalid status: " ++ r.status) ∈ (validateRow procTs r).2 := by
  simp only [validateRow, h, Bool.false_eq_true, if_false]
  split_ifs <;> simp [List.mem_append]

/-! ## Claim theorems -/

/-- C1: a bronze row selected for silver processing with
`transaction_type = "refund"` and `amount ≥ 0` yields a silver row whose
amount is `-abs(original amount)` and whose `validation_status` contains the
warning "Refund with non-negative amount"; rows of other types or with
negative amounts keep their amount unchanged. -/
theorem refund_amount_correction (procTs : String) (r : BronzeRow) :
    (r.transaction_type = "refund" ∧ 0 ≤ r.amount →
      (validateRow procTs r).1.amount = -|r.amount| ∧
      strContains (validateRow procTs r).1.validation_status
        "Refund with non-negative amount") ∧
    (¬ (r.transaction_type = "refund" ∧ 0 ≤ r.amount) →
      (validateRow procTs r).1.amount = r.amount) := by
  constructor
  · intro h
    refine ⟨?_, mem_msgs_strContains _ _ _ (refund_msg_mem _ _ h)⟩
    rw [validateRow_amount, if_pos h]
  · intro h
    rw [validateRow_amount, if_neg h]

/-- Witness for C1 on the concrete refund row with amount 50. -/
theorem refund_amount_correction_witness :
    exBronzeRefund.transaction_type = "refund" ∧ 0 ≤ exBronzeRefund.amount ∧
    (validateRow "2024-01-02 00:00:00" exBronzeRefund).1.amount =
      -|exBronzeRefund.amount| ∧
    strContains
      (validateRow "2024-01-02 00:00:00" exBronzeRefund).1.validation_status
      "Refund with non-negative amount" := by
  have h : exBronzeRefund.transaction_type = "refund" ∧
      0 ≤ exBronzeRefund.amount := ⟨rfl, by decide⟩
  exact ⟨h.1, h.2,
    ((refund_amount_correction "2024-01-02 00:00:00" exBronzeRefund).1 h).1,
    ((refund_amount_correction "2024-01-02 00:00:00" exBronzeRefund).1 h).2⟩

/-- C3: every silver row that the gold aggregation selects has
`validation_status` exactly `"VALID"`; rows with a warning verdict are
excluded from all gold measures (which are computed from the selected rows
only). -/
theorem gold_aggregates_only_valid (silver : List SilverRow)
    (gold : List GoldRow) (r : SilverRow)
    (h : r ∈ selectForGold silver gold) :
    r.validation_status = "VALID" := by
  unfold selectForGold at h
  have hv : isValidRow r = true := by
    split at h
    · split at h
      · exact (List.mem_filter.mp h).2
      · have hb := (List.mem_filter.mp h).2
        simp only [Bool.and_eq_true] at hb
        exact hb.2
    · exact (List.mem_filter.mp h).2
  simpa [isValidRow] using hv

/-- Witness for C3 on a concrete valid row selected from an empty gold
state. -/
theorem gold_aggregates_only_valid_witness :
    exSilverValid ∈ selectForGold [exSilverValid] [] ∧
    exSilverValid.validation_status = "VALID" := by
  have h : exSilverValid ∈ selectForGold [exSilverValid] [] := by decide
  exact ⟨h, gold_aggregates_only_valid [exSilverValid] [] exSilverValid h⟩

/-- C4: a row whose status, compared case-insensitively, is not among
completed/pending/failed/reversed gets status `"pending"` and a validation
warning mentioning the invalid status; a row whose status is in the set
keeps it unchanged. -/
theorem invalid_status_defaulted (procTs : String) (r : BronzeRow) :
    (valid_statuses.contains (strToLower r.status) = false →
      (validateRow procTs r).1.status = "pending" ∧
      strContains (validateRow procTs r).1.validation_status
        ("Invalid status: " ++ r.status)) ∧
    (valid_statuses.contains (strToLower r.status) = true →
      (validateRow procTs r).1.status = r.status) := by
  constructor
  · intro h
    refine ⟨?_, mem_msgs_strContains _ _ _ (invalid_status_msg_mem _ _ h)⟩
    rw [validateRow_status_field, h]
    simp
  · intro h
    rw [validateRow_status_field, h]
    simp

/-- Witness for C4 on the concrete row with status `"unknown_value"`. -/
theorem invalid_status_defaulted_witness :
    valid_statuses.contains (strToLower exBronzeBadStatus.status) = false ∧
    (validateRow "pt" exBronzeBadStatus).1.status = "pending" ∧
    strContains (validateRow "pt" exBronzeBadStatus).1.validation_status
      ("Invalid status: " ++ exBronzeBadStatus.status) := by
  have h : valid_statuses.contains (strToLower exBronzeBadStatus.status) = false := by
    decide
  exact ⟨h, ((invalid_status_defaulted "pt" exBronzeBadStatus).1 h).1,
    ((invalid_status_defaulted "pt" exBronzeBadStatus).1 h).2⟩

/-- C6: when every bronze `transaction_id` is already present in silver, the
silver transformation appends nothing and reports success. -/
theorem silver_transform_noop (procTs : String) (bronze : List BronzeRow)
    (silver : List SilverRow)
    (h : ∀ b ∈ bronze, ∃ s ∈ silver, s.transaction_id = b.transaction_id) :
    process_silver_layer procTs bronze silver = (silver, true) := by
  have hf : (bronze.filter fun b =>
      ¬ silver.any fun s => s.transaction_id == b.transaction_id) = [] := by
    apply List.filter_eq_nil_iff.mpr
    intro b hb
    obtain ⟨s, hs, hid⟩ := h b hb
    simp only [List.any_eq_true, beq_iff_eq, decide_not, Bool.not_eq_true',
      decide_eq_false_iff_not, not_not]
    exact ⟨s, hs, hid⟩
  unfold process_silver_layer
  rw [hf]
  rfl

/-- Witness for C6: a one-row bronze table fully mirrored in silver. -/
theorem silver_transform_noop_witness :
    (∀ b ∈ [exBronzeT1], ∃ s ∈ [exSilverValid],
      s.transaction_id = b.transaction_id) ∧
    process_silver_layer "pt" [exBronzeT1] [exSilverValid] =
      ([exSilverValid], true) := by
  have h : ∀ b ∈ [exBronzeT1], ∃ s ∈ [exSilverValid],
      s.transaction_id = b.transaction_id := by decide
  exact ⟨h, silver_transform_noop "pt" [exBronzeT1] [exSilverValid] h⟩

/-- C7: a batch whose header is missing a required column is rejected before
any insertion: the loader reports failure and the bronze table is left
unchanged. -/
theorem missing_column_rejects_batch (f : CsvFile)
    (table : List CsvBronzeRow) (c : String)
    (hc : c ∈ required_columns) (hmiss : c ∉ f.header) :
    ingest_data f table = (false, table, 0) := by
  have hv : validate_csv_structure f.header required_columns = false := by
    unfold validate_csv_structure
    by_cases hh : f.header.isEmpty
    · rw [if_pos hh]
    · rw [if_neg hh]
      apply List.all_eq_false.mpr
      refine ⟨c, hc, ?_⟩
      simpa using hmiss
  unfold ingest_data
  rw [hv]
  rfl

/-- Witness for C7: a header missing the `amount` column. -/
theorem missing_column_rejects_batch_witness :
    "amount" ∈ required_columns ∧ "amount" ∉ exCsvMissing.header ∧
    ingest_data exCsvMissing [] = (false, [], 0) :=
  ⟨by decide, by decide,
    missing_column_rejects_batch exCsvMissing [] "amount"
      (by decide) (by decide)⟩

/-! ## Lemmas about the bronze loaders -/

/-- A row kept by the dedup pass was not previously seen. -/
theorem dedupFirst_not_seen :
    ∀ (seen : List String) (l : List InRow) (r : InRow),
      r ∈ dedupFirst seen l → seen.contains r.transaction_id = false := by
  intro seen l
  induction l generalizing seen with
  | nil => intro r h; cases h
  | cons a rest ih =>
    intro r h
    unfold dedupFirst at h
    split at h
    · exact ih seen r h
    · rename_i hc
      rcases List.mem_cons.mp h with hm | hm
      · subst hm
        simpa using hc
      · have h2 := ih (a.transaction_id :: seen) r hm
        simp only [List.contains_cons, Bool.or_eq_false_iff] at h2
        exact h2.2

/-- The dedup pass produces rows with pairwise-distinct ids. -/
theorem dedupFirst_ids_nodup :
    ∀ (seen : List String) (l : List InRow),
      ((dedupFirst seen l).map (·.transaction_id)).Nodup := by
  intro seen l
  induction l generalizing seen with
  | nil => simp [dedupFirst]
  | cons a rest ih =>
    unfold dedupFirst
    split
    · exact ih seen
    · simp only [List.map_cons, List.nodup_cons]
      refine ⟨?_, ih _⟩
      intro hmem
      rw [List.mem_map] at hmem
      obtain ⟨r, hr, hid⟩ := hmem
      have hns := dedupFirst_not_seen _ _ _ hr
      simp [List.contains_cons, hid] at hns

/-- `process_bronze_layer` in closed form: the old table followed by the
stamped fresh records. -/
theorem process_bronze_eq (ts src : String) (batch : List InRow)
    (bronze : List BronzeRow) :
    (process_bronze_layer ts src batch bronze).1 =
      bronze ++ ((dedupFirst [] batch).filter
        (fun r => ¬ (bronzeIds bronze).contains r.transaction_id)).map
          (stampRow ts src) := by
  simp only [process_bronze_layer]
  split
  · rename_i hemp
    rw [List.isEmpty_iff] at hemp
    rw [hemp, List.map_nil, List.append_nil]
  · rfl

/-- After one load, every id of the deduplicated batch is present in the
bronze table. -/
theorem bronze_ids_covered (ts src : String) (batch : List InRow)
    (bronze : List BronzeRow) (r : InRow) (hr : r ∈ dedupFirst [] batch) :
    (bronzeIds ((process_bronze_layer ts src batch bronze).1)).contains
      r.transaction_id = true := by
  rw [process_bronze_eq]
  unfold bronzeIds
  rw [List.map_append, List.elem_iff, List.mem_append]
  by_cases hb : (bronzeIds bronze).contains r.transaction_id = true
  · left
    rw [List.elem_iff] at hb
    exact hb
  · right
    rw [List.map_map, List.mem_map]
    refine ⟨r, ?_, rfl⟩
    rw [List.mem_filter]
    refine ⟨hr, ?_⟩
    simp only [decide_eq_true_eq]
    exact hb

/-- A second load of the identical batch finds no fresh records. -/
theorem bronze_second_run_no_new (ts1 src1 : String)
    (batch : List InRow) (bronze : List BronzeRow) :
    ((dedupFirst [] batch).filter
      (fun r => ¬ (bronzeIds ((process_bronze_layer ts1 src1 batch bronze).1)).contains
        r.transaction_id)) = [] := by
  apply List.filter_eq_nil_iff.mpr
  intro r hr
  have hc := bronze_ids_covered ts1 src1 batch bronze r hr
  rw [List.elem_iff] at hc
  simp [hc]

/-! ## Claim theorems (bronze loaders) -/

/-- C5: loading the identical batch a second time leaves the bronze table
exactly as after the first load (in particular the row count is unchanged);
a load only ever appends to the existing table, and it preserves the
invariant that stored `transaction_id`s are pairwise distinct. -/
theorem bronze_load_idempotent (ts1 src1 ts2 src2 : String)
    (batch : List InRow) (bronze : List BronzeRow) :
    (process_bronze_layer ts2 src2 batch
        (process_bronze_layer ts1 src1 batch bronze).1).1 =
      (process_bronze_layer ts1 src1 batch bronze).1 ∧
    (∃ appended, (process_bronze_layer ts1 src1 batch bronze).1 =
      bronze ++ appended) ∧
    ((bronzeIds bronze).Nodup →
      (bronzeIds (process_bronze_layer ts1 src1 batch bronze).1).Nodup) := by
  refine ⟨?_, ⟨_, process_bronze_eq ts1 src1 batch bronze⟩, ?_⟩
  · rw [process_bronze_eq ts2 src2 batch,
      bronze_second_run_no_new ts1 src1 batch bronze,
      List.map_nil, List.append_nil]
  · intro hnd
    rw [process_bronze_eq]
    unfold bronzeIds
    rw [List.map_append, List.nodup_append]
    refine ⟨hnd, ?_, ?_⟩
    · rw [List.map_map]
      have hsub : ((dedupFirst [] batch).filter
            (fun r => ¬ (bronzeIds bronze).contains r.transaction_id)).map
              (fun r => r.transaction_id) |>.Sublist
            ((dedupFirst [] batch).map (fun r => r.transaction_id)) :=
        (List.filter_sublist _).map _
      exact (dedupFirst_ids_nodup [] batch).sublist hsub
  -- no duplicate between the old ids and the appended ids
    · intro x hx hx2
      rw [List.map_map, List.mem_map] at hx2
      obtain ⟨r, hrf, hid⟩ := hx2
      rw [List.mem_filter] at hrf
      have hni := hrf.2
      simp only [decide_not, Bool.not_eq_true', decide_eq_false_iff_not] at hni
      apply hni
      rw [List.elem_iff]
      have hrx : r.transaction_id = x := hid
      rw [hrx]
      exact hx

/-- Witness for C5: a batch with an in-batch duplicate loaded twice into an
empty table. -/
theorem bronze_load_idempotent_witness :
    (bronzeIds []).Nodup ∧
    (process_bronze_layer "t2" "s" [exInA, exInA2, exInB]
        (process_bronze_layer "t1" "s" [exInA, exInA2, exInB] []).1).1 =
      (process_bronze_layer "t1" "s" [exInA, exInA2, exInB] []).1 ∧
    (bronzeIds (process_bronze_layer "t1" "s" [exInA, exInA2, exInB] []).1).Nodup := by
  have h := bronze_load_idempotent "t1" "s" "t2" "s" [exInA, exInA2, exInB] []
  exact ⟨List.nodup_nil, h.1, h.2.2 List.nodup_nil⟩

/-- Unfolding equation of the insertion loop on a nonempty batch. -/
theorem ingestLoop_cons (row : CsvRow) (rest : List CsvRow)
    (t : List CsvBronzeRow) (c : ℕ) :
    ingestLoop (row :: rest) t c =
      (match parseCsvRow row with
       | none => ingestLoop rest t c
       | some rec =>
         if t.any (fun r => r.transaction_id == rec.transaction_id) then
           ingestLoop rest t c
         else ingestLoop rest (t ++ [rec]) (c + 1)) := rfl

/-- Step equation: an unparseable row is skipped. -/
theorem ingestLoop_cons_none (row : CsvRow) (rest : List CsvRow)
    (t : List CsvBronzeRow) (c : ℕ) (hp : parseCsvRow row = none) :
    ingestLoop (row :: rest) t c = ingestLoop rest t c := by
  rw [ingestLoop_cons, hp]

/-- Step equation: a duplicate id raises `IntegrityError` and is skipped. -/
theorem ingestLoop_cons_dup (row : CsvRow) (rest : List CsvRow)
    (t : List CsvBronzeRow) (c : ℕ) (rec : CsvBronzeRow)
    (hp : parseCsvRow row = some rec)
    (ha : (t.any fun r => r.transaction_id == rec.transaction_id) = true) :
    ingestLoop (row :: rest) t c = ingestLoop rest t c := by
  rw [ingestLoop_cons, hp]
  exact if_pos ha

/-- Step equation: a fresh parseable row is inserted and counted. -/
theorem ingestLoop_cons_new (row : CsvRow) (rest : List CsvRow)
    (t : List CsvBronzeRow) (c : ℕ) (rec : CsvBronzeRow)
    (hp : parseCsvRow row = some rec)
    (ha : ¬ (t.any fun r => r.transaction_id == rec.transaction_id) = true) :
    ingestLoop (row :: rest) t c = ingestLoop rest (t ++ [rec]) (c + 1) := by
  rw [ingestLoop_cons, hp]
  exact if_neg ha

/-- The insertion loop's final count equals the number of rows it appended
to the table. -/
theorem ingestLoop_count :
    ∀ (rows : List CsvRow) (table : List CsvBronzeRow) (count : ℕ),
      (ingestLoop rows table count).1.length + count =
        (ingestLoop rows table count).2 + table.length := by
  intro rows
  induction rows with
  | nil =>
    intro t c
    show t.length + c = c + t.length
    omega
  | cons row rest ih =>
    intro t c
    cases hp : parseCsvRow row with
    | none =>
      rw [ingestLoop_cons_none row rest t c hp]
      exact ih t c
    | some rec =>
      by_cases ha : (t.any fun r => r.transaction_id == rec.transaction_id) = true
      · rw [ingestLoop_cons_dup row rest t c rec hp ha]
        exact ih t c
      · rw [ingestLoop_cons_new row rest t c rec hp ha]
        have h2 := ih (t ++ [rec]) (c + 1)
        simp only [List.length_append, List.length_singleton] at h2
        omega

/-- C9 counterexample: `ingest_data` returns the same value for a batch that
inserts one row and a batch that inserts two rows, so its return value is
not the count of rows inserted (it is the boolean success flag; the count is
only logged). -/
theorem ingest_return_not_count :
    (ingest_data exCsvOne []).1 = (ingest_data exCsvTwo []).1 ∧
    (ingest_data exCsvOne []).2.1.length = 1 ∧
    (ingest_data exCsvTwo []).2.1.length = 2 := by
  refine ⟨rfl, ?_, ?_⟩ <;> rfl

/-- C9 (amended): on a structurally valid batch the loader returns `True`,
and the count it logs equals the number of rows actually inserted into the
table (rows skipped as duplicates or as unparseable are not counted). -/
theorem ingest_logs_inserted_count (f : CsvFile) (table : List CsvBronzeRow)
    (h : validate_csv_structure f.header required_columns = true) :
    (ingest_data f table).1 = true ∧
    (ingest_data f table).2.1.length =
      table.length + (ingest_data f table).2.2 := by
  have he : ingest_data f table =
      (true, (ingestLoop f.rows table 0).1, (ingestLoop f.rows table 0).2) := by
    unfold ingest_data
    rw [h, if_pos rfl]
  rw [he]
  have hc := ingestLoop_count f.rows table 0
  refine ⟨rfl, ?_⟩
  show (ingestLoop f.rows table 0).1.length =
    table.length + (ingestLoop f.rows table 0).2
  omega

/-- Witness for C9's amended theorem on a concrete two-row batch. -/
theorem ingest_logs_inserted_count_witness :
    validate_csv_structure exCsvTwo.header required_columns = true ∧
    (ingest_data exCsvTwo []).1 = true ∧
    (ingest_data exCsvTwo []).2.1.length =
      (0 : ℕ) + (ingest_data exCsvTwo []).2.2 := by
  have hv : validate_csv_structure exCsvTwo.header required_columns = true := by
    decide
  have h := ingest_logs_inserted_count exCsvTwo [] hv
  exact ⟨hv, h.1, h.2⟩

/-- Skipping an unparseable row: the loop treats the batch as if the bad row
were absent. -/
theorem ingestLoop_skips_bad :
    ∀ (pre : List CsvRow) (bad : CsvRow) (post : List CsvRow)
      (table : List CsvBronzeRow) (count : ℕ),
      parseCsvRow bad = none →
      ingestLoop (pre ++ bad :: post) table count =
        ingestLoop (pre ++ post) table count := by
  intro pre
  induction pre with
  | nil =>
    intro bad post t c hbad
    show ingestLoop (bad :: post) t c = ingestLoop post t c
    exact ingestLoop_cons_none bad post t c hbad
  | cons row rest ih =>
    intro bad post t c hbad
    show ingestLoop (row :: (rest ++ bad :: post)) t c =
      ingestLoop (row :: (rest ++ post)) t c
    cases hp : parseCsvRow row with
    | none =>
      rw [ingestLoop_cons_none row _ t c hp, ingestLoop_cons_none row _ t c hp]
      exact ih bad post t c hbad
    | some rec =>
      by_cases ha : (t.any fun r => r.transaction_id == rec.transaction_id) = true
      · rw [ingestLoop_cons_dup row _ t c rec hp ha,
          ingestLoop_cons_dup row _ t c rec hp ha]
        exact ih bad post t c hbad
      · rw [ingestLoop_cons_new row _ t c rec hp ha,
          ingestLoop_cons_new row _ t c rec hp ha]
        exact ih bad post _ _ hbad

/-- C10: a CSV row whose fields raise `KeyError` or whose amount raises
`ValueError` in `float` is skipped while every other row of the batch is
still processed exactly as if the bad row were absent, and ingestion still
reports success — partial ingestion, not a whole-batch abort. -/
theorem bad_row_skipped_batch_continues (header : List String)
    (pre post : List CsvRow) (bad : CsvRow) (table : List CsvBronzeRow)
    (hbad : parseCsvRow bad = none)
    (hdr : validate_csv_structure header required_columns = true) :
    ingest_data ⟨header, pre ++ bad :: post⟩ table =
      ingest_data ⟨header, pre ++ post⟩ table ∧
    (ingest_data ⟨header, pre ++ bad :: post⟩ table).1 = true := by
  constructor
  · unfold ingest_data
    rw [hdr, if_pos rfl, if_pos rfl,
      ingestLoop_skips_bad pre bad post table 0 hbad]
  · unfold ingest_data
    rw [hdr, if_pos rfl]

/-- Witness for C10: a batch with a good row, a row whose amount is
`"abc"`, and another good row. -/
theorem bad_row_skipped_witness :
    parseCsvRow exCsvBad = none ∧
    validate_csv_structure required_columns required_columns = true ∧
    ingest_data ⟨required_columns, [mkCsvRow "T1" "5"] ++ exCsvBad :: [mkCsvRow "T2" "6"]⟩ [] =
      ingest_data ⟨required_columns, [mkCsvRow "T1" "5"] ++ [mkCsvRow "T2" "6"]⟩ [] ∧
    (ingest_data ⟨required_columns, [mkCsvRow "T1" "5"] ++ exCsvBad :: [mkCsvRow "T2" "6"]⟩ []).1 = true := by
  have hbad : parseCsvRow exCsvBad = none := by decide
  have hdr : validate_csv_structure required_columns required_columns = true := by
    decide
  have h := bad_row_skipped_batch_continues required_columns
    [mkCsvRow "T1" "5"] [mkCsvRow "T2" "6"] exCsvBad [] hbad hdr
  exact ⟨hbad, hdr, h.1, h.2⟩

/-! ## Lemmas about the gold frontier -/

/-- A non-`none` maximum is attained by some gold row. -/
theorem maxDate_attained :
    ∀ (g : List GoldRow) (d : String), maxDate g = some d →
      ∃ k ∈ g, k.summary_date = some d := by
  intro g
  induction g with
  | nil => intro d h; simp [maxDate] at h
  | cons k rest ih =>
    intro d h
    unfold maxDate at h
    cases hk : k.summary_date with
    | none =>
      rw [hk] at h
      obtain ⟨k', hk', hd⟩ := ih d h
      exact ⟨k', List.mem_cons_of_mem _ hk', hd⟩
    | some x =>
      rw [hk] at h
      cases hm : maxDate rest with
      | none =>
        rw [hm] at h
        obtain rfl : x = d := by simpa using h
        exact ⟨k, List.mem_cons_self _ _, hk⟩
      | some m =>
        rw [hm] at h
        have hd : d = max x m := by simpa using h.symm
        rcases max_choice x m with hc | hc
        · refine ⟨k, List.mem_cons_self _ _, ?_⟩
          rw [hk, hd, hc]
        · obtain ⟨k', hk', hdm⟩ := ih m hm
          refine ⟨k', List.mem_cons_of_mem _ hk', ?_⟩
          rw [hdm, hd, hc]

/-- Every dated gold row is bounded by the maximum. -/
theorem maxDate_le :
    ∀ (g : List GoldRow) (k : GoldRow) (x : String), k ∈ g →
      k.summary_date = some x → ∃ d, maxDate g = some d ∧ x ≤ d := by
  intro g
  induction g with
  | nil => intro k x hk _; cases hk
  | cons a rest ih =>
    intro k x hk hx
    rcases List.mem_cons.mp hk with rfl | hmem
    · unfold maxDate
      rw [hx]
      cases hm : maxDate rest with
      | none => exact ⟨x, rfl, le_refl x⟩
      | some m => exact ⟨max x m, rfl, le_max_left x m⟩
    · obtain ⟨d, hd, hxd⟩ := ih k x hmem hx
      unfold maxDate
      rw [hd]
      cases ha : a.summary_date with
      | none => exact ⟨d, rfl, hxd⟩
      | some y => exact ⟨max y d, rfl, le_trans hxd (le_max_right y d)⟩

/-- An insert-or-replace never lowers the maximum `summary_date`: the row
attaining it either survives or is replaced by a row with the same key and
hence the same date. -/
theorem maxDate_upsert_mono (g : List GoldRow) (nr : GoldRow) (d : String)
    (h : maxDate g = some d) :
    ∃ d', maxDate (upsertRow g nr) = some d' ∧ d ≤ d' := by
  obtain ⟨k, hk, hkd⟩ := maxDate_attained g d h
  by_cases hsame : k.summary_date = nr.summary_date ∧
      k.transaction_type = nr.transaction_type ∧ k.category = nr.category
  · have hnr : nr.summary_date = some d := by rw [← hsame.1, hkd]
    have hmem : nr ∈ upsertRow g nr := by
      unfold upsertRow
      exact List.mem_append_right _ (List.mem_singleton_self _)
    exact maxDate_le _ nr d hmem hnr
  · have hmem : k ∈ upsertRow g nr := by
      unfold upsertRow
      apply List.mem_append_left
      rw [List.mem_filter]
      refine ⟨hk, ?_⟩
      simp only [decide_eq_true_eq]
      exact hsame
    exact maxDate_le _ k d hmem hkd

/-- Folding upserts never lowers the maximum `summary_date`. -/
theorem maxDate_foldl_mono
    (f : Option String × String × Option String → GoldRow) :
    ∀ (keys : List (Option String × String × Option String))
      (g : List GoldRow) (d : String), maxDate g = some d →
      ∃ d', maxDate (keys.foldl (fun acc k => upsertRow acc (f k)) g) =
        some d' ∧ d ≤ d' := by
  intro keys
  induction keys with
  | nil => intro g d h; exact ⟨d, h, le_refl d⟩
  | cons k rest ih =>
    intro g d h
    obtain ⟨d1, h1, hd1⟩ := maxDate_upsert_mono g (f k) d h
    obtain ⟨d', h', hd'⟩ := ih (upsertRow g (f k)) d1 h1
    exact ⟨d', h', le_trans hd1 hd'⟩

/-- A gold run never lowers the frontier. -/
theorem maxDate_process_mono (procTs : String) (s : List SilverRow)
    (g : List GoldRow) (d : String) (h : maxDate g = some d) :
    ∃ d', maxDate (process_gold_layer procTs s g) = some d' ∧ d ≤ d' := by
  simp only [process_gold_layer]
  split
  · exact ⟨d, h, le_refl d⟩
  · exact maxDate_foldl_mono (mkGoldRow procTs (selectForGold s g))
      (gkeys (selectForGold s g)) g d h

/-- A row dated at or before a truthy frontier is not selected. -/
theorem not_selected_of_le (s : List SilverRow) (g : List GoldRow)
    (d : String) (hm : maxDate g = some d) (hne : "" < d)
    (r : SilverRow) (dt : String) (hdt : r.transaction_date = some dt)
    (hle : dt ≤ d) : r ∉ selectForGold s g := by
  intro hmem
  unfold selectForGold at hmem
  rw [hm] at hmem
  have hmem' : r ∈ (if d = "" then s.filter isValidRow
      else s.filter (fun r =>
        (match r.transaction_date with
         | some dt => decide (d < dt)
         | none => false) && isValidRow r)) := hmem
  rw [if_neg (ne_of_gt hne)] at hmem'
  have hp := (List.mem_filter.mp hmem').2
  rw [hdt] at hp
  simp only [Bool.and_eq_true, decide_eq_true_eq] at hp
  exact absurd hp.1 (not_lt.mpr hle)

/-- A row dated at or before a truthy frontier is never selected by any
later sequence of gold runs. -/
theorem never_selected_after (r : SilverRow) (dt : String)
    (hdt : r.transaction_date = some dt) :
    ∀ (runs : List (String × List SilverRow)) (g : List GoldRow) (d : String),
      maxDate g = some d → "" < d → dt ≤ d →
      ¬ selectedInRuns r g runs := by
  intro runs
  induction runs with
  | nil =>
    intro g d _ _ _ h
    exact h
  | cons p rest ih =>
    intro g d hm hne hle h
    obtain ⟨ts, s⟩ := p
    cases h with
    | inl hsel => exact not_selected_of_le s g d hm hne r dt hdt hle hsel
    | inr hrest =>
      obtain ⟨d', hm', hdd'⟩ := maxDate_process_mono ts s g d hm
      exact ih (process_gold_layer ts s g) d' hm'
        (lt_of_lt_of_le hne hdd') (le_trans hle hdd') hrest

/-- C2: the gold frontier is the maximum `summary_date` stored in gold (with
an empty gold table every `'VALID'` silver row is considered); a run selects
only `'VALID'` rows with `transaction_date` strictly past the frontier, and
a silver row dated at or before the frontier is never selected by this run
or by any later run. -/
theorem gold_frontier_policy (silver : List SilverRow) (g : List GoldRow)
    (d : String) (hmax : maxDate g = some d) (htruthy : "" < d) :
    selectForGold silver ([] : List GoldRow) = silver.filter isValidRow ∧
    (∀ r ∈ selectForGold silver g,
      isValidRow r = true ∧ ∃ dt, r.transaction_date = some dt ∧ d < dt) ∧
    (∀ (r : SilverRow) (dt : String), r.transaction_date = some dt → dt ≤ d →
      ∀ runs : List (String × List SilverRow),
        ¬ selectedInRuns r g runs) := by
  refine ⟨rfl, ?_, ?_⟩
  · intro r hr
    unfold selectForGold at hr
    rw [hmax] at hr
    have hr' : r ∈ (if d = "" then silver.filter isValidRow
        else silver.filter (fun r =>
          (match r.transaction_date with
           | some dt => decide (d < dt)
           | none => false) && isValidRow r)) := hr
    rw [if_neg (ne_of_gt htruthy)] at hr'
    have hp := (List.mem_filter.mp hr').2
    simp only [Bool.and_eq_true] at hp
    refine ⟨hp.2, ?_⟩
    cases hdt : r.transaction_date with
    | none =>
      have h1 := hp.1
      rw [hdt] at h1
      simp at h1
    | some dt =>
      have h1 := hp.1
      rw [hdt] at h1
      simp only [decide_eq_true_eq] at h1
      exact ⟨dt, rfl, h1⟩
  · intro r dt hdt hle runs
    exact never_selected_after r dt hdt runs g d hmax htruthy hle

/-- Witness for C2: a gold frontier at `2024-01-02` and a late valid silver
row dated `2024-01-01`, which a subsequent run never selects. -/
theorem gold_frontier_policy_witness :
    maxDate [exGoldRow] = some "2024-01-02" ∧
    ("" : String) < "2024-01-02" ∧
    exSilverLate.transaction_date = some "2024-01-01" ∧
    ("2024-01-01" : String) ≤ "2024-01-02" ∧
    ¬ selectedInRuns exSilverLate [exGoldRow] [("pt", [exSilverLate])] := by
  have hlt : ("" : String) < "2024-01-02" := by
    rw [String.lt_iff_toList_lt]
    decide
  have hle : ("2024-01-01" : String) ≤ "2024-01-02" := by
    rw [String.le_iff_toList_le]
    decide
  refine ⟨rfl, hlt, rfl, hle, ?_⟩
  exact (gold_frontier_policy [exSilverLate] [exGoldRow] "2024-01-02" rfl
    hlt).2.2 exSilverLate "2024-01-01" rfl hle
    [("pt", [exSilverLate])]

/-- C8: stages execute strictly in the order bronze, silver, gold, export; a
stage is entered only when the previous stage succeeded; a stage failure
halts all further stage execution (export in particular runs only after gold
succeeds); and a later stage's failure leaves the data committed by earlier
stages untouched. -/
theorem pipeline_stage_order (input : Option (List InRow))
    (procTs src : String) (bronzeOk silverOk goldOk : Bool)
    (db : PipelineDB) :
    List.Sublist (run_pipeline input procTs src bronzeOk silverOk goldOk db).2.1
      [Stage.bronzeStage, Stage.silverStage, Stage.goldStage, Stage.exportStage] ∧
    (Stage.silverStage ∈ (run_pipeline input procTs src bronzeOk silverOk goldOk db).2.1 →
      input = none ∨ bronzeOk = true) ∧
    (Stage.goldStage ∈ (run_pipeline input procTs src bronzeOk silverOk goldOk db).2.1 →
      silverOk = true ∧
      Stage.silverStage ∈ (run_pipeline input procTs src bronzeOk silverOk goldOk db).2.1) ∧
    (Stage.exportStage ∈ (run_pipeline input procTs src bronzeOk silverOk goldOk db).2.1 →
      goldOk = true ∧
      Stage.goldStage ∈ (run_pipeline input procTs src bronzeOk silverOk goldOk db).2.1) ∧
    ((run_pipeline input procTs src bronzeOk silverOk goldOk db).2.2 = false →
      Stage.exportStage ∉ (run_pipeline input procTs src bronzeOk silverOk goldOk db).2.1) ∧
    (run_pipeline input procTs src bronzeOk silverOk false db).1.bronze =
      (run_pipeline input procTs src bronzeOk silverOk true db).1.bronze ∧
    (run_pipeline input procTs src bronzeOk silverOk false db).1.silver =
      (run_pipeline input procTs src bronzeOk silverOk true db).1.silver ∧
    (run_pipeline input procTs src bronzeOk false goldOk db).1.bronze =
      (run_pipeline input procTs src bronzeOk true goldOk db).1.bronze := by
  refine ⟨?_, ?_, ?_, ?_, ?_, ?_, ?_, ?_⟩ <;>
    cases input <;> cases bronzeOk <;> cases silverOk <;> cases goldOk <;>
      simp [run_pipeline, runFromSilver, runFromGold]

/-- Witness for C8: an all-success run reaches export after gold. -/
theorem pipeline_stage_order_witness :
    Stage.exportStage ∈
      (run_pipeline (some [exInA]) "pt" "src" true true true dbEmpty).2.1 ∧
    (true = true ∧ Stage.goldStage ∈
      (run_pipeline (some [exInA]) "pt" "src" true true true dbEmpty).2.1) := by
  have hmem : Stage.exportStage ∈
      (run_pipeline (some [exInA]) "pt" "src" true true true dbEmpty).2.1 := by
    decide
  exact ⟨hmem,
    (pipeline_stage_order (some [exInA]) "pt" "src" true true true
      dbEmpty).2.2.2.1 hmem⟩

end Medallion
